import Mathlib

set_option maxRecDepth 100000

deriving instance DecidableEq for Except

/-!
Verification of the solana-mail program (src/state.rs, src/processor.rs).

The on-buffer format is borsh: a `u32` little-endian length prefix at
offset 0, followed by that many bytes encoding a `MailAccount`
(`Vec<Mail>` inbox, `Vec<Mail>` sent); a `Mail` is six length-prefixed
strings.  Buffers are modelled as `List Nat` of byte values; `u32`
values are `Nat` taken modulo `2 ^ 32` where the code casts.  String
contents are opaque byte sequences to the codec (the code performs no
charset transformation on any path exercised here), so Rust `String`
fields are modelled as byte lists.

Rust failure modes are modelled explicitly:
  * `ProgError.custom n` — `MailError` variants via `ProgramError::Custom`
    (`InvalidInstruction = 0`, `NotWritable = 1`);
  * `ProgError.incorrectProgramId` — `ProgramError::IncorrectProgramId`;
  * `ProgError.borshIo` — a borsh serialization or deserialization error
    propagated with `?` (`ProgramError::BorshIoError`), which is how both
    decode failures and write overflows surface;
  * `ProgError.panicked` — a Rust panic (slice index out of bounds, or a
    failed `unwrap`), which aborts instead of returning an error.

Writing a borsh value into `&mut buf[lo..hi]` uses the `io::Write`
instance for `&mut [u8]`: each chunk copies as many bytes as still fit
and the write fails only once the slice is exhausted, so a failing
serialize commits the fitting prefix of the encoding.  `writeRegion`
models exactly that.
-/

namespace SolMail

/-- Little-endian `u32` encoding of `n` as four bytes; the value is the
source's `as u32` / `u32::try_from` image, i.e. `n % 2 ^ 32` spread over
four base-256 digits. -/
def encodeU32 (n : Nat) : List Nat :=
  [n % 256, n / 256 % 256, n / 65536 % 256, n / 16777216 % 256]

/-- Little-endian `u32` value of four bytes. -/
def decodeU32 (b0 b1 b2 b3 : Nat) : Nat :=
  b0 + 256 * b1 + 65536 * b2 + 16777216 * b3

/-- Borsh reader for a `u32`: consume four bytes. -/
def readU32 : List Nat → Option (Nat × List Nat)
  | b0 :: b1 :: b2 :: b3 :: rest => some (decodeU32 b0 b1 b2 b3, rest)
  | _ => none

/-- Borsh reader for `n` raw bytes. -/
def readBytes (n : Nat) (l : List Nat) : Option (List Nat × List Nat) :=
  if n ≤ l.length then some (l.take n, l.drop n) else none

/-- Borsh reader for a length-prefixed byte string. -/
def readString (l : List Nat) : Option (List Nat × List Nat) := do
  let (n, l1) ← readU32 l
  readBytes n l1

/-- `Mail` (src/state.rs lines 4-11): six text fields, modelled as byte
lists. -/
structure Mail where
  id : List Nat
  from_address : List Nat
  to_address : List Nat
  subject : List Nat
  body : List Nat
  sent_date : List Nat
deriving DecidableEq

/-- `MailAccount` (src/state.rs lines 14-17): the inbox and sent lists. -/
structure MailAccount where
  inbox : List Mail
  sent : List Mail
deriving DecidableEq

/-- Borsh encoding of a length-prefixed string. -/
def encString (s : List Nat) : List Nat := encodeU32 s.length ++ s

/-- Borsh encoding of a `Mail`: the six fields in declaration order. -/
def encMail (m : Mail) : List Nat :=
  encString m.id ++ encString m.from_address ++ encString m.to_address ++
    encString m.subject ++ encString m.body ++ encString m.sent_date

/-- Concatenated borsh encodings of a list of `Mail`s (the element part
of a `Vec<Mail>` encoding). -/
def encMails (ms : List Mail) : List Nat := (ms.map encMail).flatten

/-- Borsh encoding of a `MailAccount`: count-prefixed inbox, then
count-prefixed sent list. -/
def encMailAccount (a : MailAccount) : List Nat :=
  encodeU32 a.inbox.length ++ encMails a.inbox ++
    encodeU32 a.sent.length ++ encMails a.sent

/-- Borsh reader for a `Mail`. -/
def readMail (l : List Nat) : Option (Mail × List Nat) := do
  let (i, l1) ← readString l
  let (f, l2) ← readString l1
  let (t, l3) ← readString l2
  let (s, l4) ← readString l3
  let (b, l5) ← readString l4
  let (d, l6) ← readString l5
  some (⟨i, f, t, s, b, d⟩, l6)

/-- Borsh reader for `n` consecutive `Mail`s. -/
def readMails : Nat → List Nat → Option (List Mail × List Nat)
  | 0, l => some ([], l)
  | n + 1, l => do
    let (m, l1) ← readMail l
    let (ms, l2) ← readMails n l1
    some (m :: ms, l2)

/-- Borsh reader for a `MailAccount`. -/
def readMailAccount (l : List Nat) : Option (MailAccount × List Nat) := do
  let (ni, l1) ← readU32 l
  let (inbox, l2) ← readMails ni l1
  let (ns, l3) ← readU32 l2
  let (sent, l4) ← readMails ns l3
  some (⟨inbox, sent⟩, l4)

/-- `Mail::try_from_slice`: deserialize and require every byte of the
slice to be consumed. -/
def mailFromSlice (l : List Nat) : Option Mail :=
  match readMail l with
  | some (m, []) => some m
  | _ => none

/-- `MailAccount::try_from_slice`: deserialize and require every byte of
the slice to be consumed. -/
def accountFromSlice (l : List Nat) : Option MailAccount :=
  match readMailAccount l with
  | some (a, []) => some a
  | _ => none

/-- `ProgramError` outcomes reachable in src/processor.rs, plus
`panicked` for Rust panics (slice bounds, failed `unwrap`). -/
inductive ProgError where
  | custom : Nat → ProgError
  | incorrectProgramId : ProgError
  | borshIo : ProgError
  | panicked : ProgError
deriving DecidableEq

/-- `MailError::NotWritable` converted through `ProgramError::Custom`
(`NotWritable` is discriminant 1 in src/error.rs). -/
def notWritableErr : ProgError := ProgError.custom 1

/-- The slice of `AccountInfo` the processor uses: key and owner pubkeys
(represented by their base58 strings, which the code only compares and
stringifies), the writability flag, and the account data bytes. -/
structure AccountInfo where
  key : String
  is_writable : Bool
  owner : String
  data : List Nat
deriving DecidableEq

/-- Byte list of a Lean string (all literals used here are ASCII). -/
def strBytes (s : String) : List Nat := s.data.map Char.toNat

/-- Serialize `bytes` into the region `[lo, hi)` of `buf` through the
`io::Write` instance for `&mut [u8]`: copy as many bytes as fit, leave
the rest of the buffer untouched, and report whether the whole value
fit.  Returns the updated buffer and the success flag. -/
def writeRegion (buf : List Nat) (lo hi : Nat) (bytes : List Nat) :
    List Nat × Bool :=
  let room := min hi buf.length - lo
  let written := bytes.take room
  (buf.take lo ++ written ++ buf.drop (lo + written.length),
    decide (bytes.length ≤ room))

/-- `DataLength::try_from_slice(&data[..4])` (processor.rs line 94 /
114): the little-endian `u32` held in the first four bytes.  `none`
models the slice-bounds panic when the buffer is shorter than 4. -/
def readDataLength : List Nat → Option Nat
  | b0 :: b1 :: b2 :: b3 :: _ => some (decodeU32 b0 b1 b2 b3)
  | _ => none

/-- The read-decode step of an append (processor.rs lines 94-105 and
114-125): read the length prefix; if it is positive, deserialize
`MailAccount` from the declared range (panicking if the range overruns
the buffer, erroring if borsh rejects it); a zero prefix yields the
empty collection. -/
def readCollectionE (data : List Nat) : Except ProgError MailAccount :=
  match readDataLength data with
  | none => Except.error ProgError.panicked
  | some dl =>
    if 0 < dl then
      if data.length < 4 + dl then Except.error ProgError.panicked
      else
        match accountFromSlice ((data.drop 4).take dl) with
        | none => Except.error ProgError.borshIo
        | some a => Except.ok a
    else Except.ok ⟨[], []⟩

/-- The read-decode step as an `Option`, for stating read-back results. -/
def readCollection (data : List Nat) : Option MailAccount :=
  (readCollectionE data).toOption

/-- The encode-write tail shared by both appends and by init
(processor.rs lines 56-62, 108-112, 128-132): pack the new encoding
length into a `u32` (panicking on `u32::try_from(..).unwrap()`
overflow), serialize the `DataLength` into `data[..4]` (panicking if the
buffer is shorter than 4), then serialize the account into `data[4..]`,
which errors after committing the fitting prefix when the encoding does
not fit. -/
def writeBack (data : List Nat) (a : MailAccount) :
    Option ProgError × List Nat :=
  let bytes := encMailAccount a
  if 4294967296 ≤ bytes.length then (some ProgError.panicked, data)
  else if data.length < 4 then (some ProgError.panicked, data)
  else
    let buf1 := (writeRegion data 0 4 (encodeU32 bytes.length)).1
    let r := writeRegion buf1 4 buf1.length bytes
    if r.2 then (none, r.1) else (some ProgError.borshIo, r.1)

/-- Which list of the collection an append pushes to: `sent` for the
sender side (processor.rs line 107), `inbox` for the receiver side
(line 126). -/
inductive Target where
  | sentBox : Target
  | inboxBox : Target
deriving DecidableEq

/-- `collection.sent.push(mail)` / `collection.inbox.push(mail)`. -/
def pushMail : Target → MailAccount → Mail → MailAccount
  | Target.sentBox, a, m => ⟨a.inbox, a.sent ++ [m]⟩
  | Target.inboxBox, a, m => ⟨a.inbox ++ [m], a.sent⟩

/-- One append to one buffer (processor.rs lines 94-112 for the sender,
114-132 for the receiver; the two blocks are identical except for the
list pushed to): read-decode, push, encode-write.  Returns the possible
error and the final buffer bytes. -/
def appendPhase (data : List Nat) (mail : Mail) (t : Target) :
    Option ProgError × List Nat :=
  match readCollectionE data with
  | Except.error e => (some e, data)
  | Except.ok a => writeBack data (pushMail t a mail)

/-- Result of `process_send_mail`: the possible error and the final
bytes of the sender and receiver buffers. -/
structure SendResult where
  res : Option ProgError
  senderData : List Nat
  receiverData : List Nat
deriving DecidableEq

/-- `Processor::process_send_mail` (processor.rs lines 67-135): check
writability and ownership of the sender then the receiver, append the
mail to the sender's `sent` list, and only if that fully succeeds append
it to the receiver's `inbox` list. -/
def processSendMail (sender receiver : AccountInfo) (mail : Mail)
    (program_id : String) : SendResult :=
  if sender.is_writable = false then
    ⟨some notWritableErr, sender.data, receiver.data⟩
  else if sender.owner ≠ program_id then
    ⟨some ProgError.incorrectProgramId, sender.data, receiver.data⟩
  else if receiver.is_writable = false then
    ⟨some notWritableErr, sender.data, receiver.data⟩
  else if receiver.owner ≠ program_id then
    ⟨some ProgError.incorrectProgramId, sender.data, receiver.data⟩
  else
    match appendPhase sender.data mail Target.sentBox with
    | (some e, d) => ⟨some e, d, receiver.data⟩
    | (none, d) =>
      match appendPhase receiver.data mail Target.inboxBox with
      | (some e, d2) => ⟨some e, d, d2⟩
      | (none, d2) => ⟨none, d, d2⟩

/-- The welcome mail built by `process_init_account` (processor.rs lines
41-49). -/
def welcomeMail (program_id key : String) : Mail :=
  { id := strBytes "00000000-0000-0000-0000-000000000000"
  , from_address := strBytes program_id
  , to_address := strBytes key
  , subject := strBytes "Welcome to SolMail"
  , body := strBytes "This is the start of your private messages on SolMail
      Lorem, ipsum dolor sit amet consectetur adipisicing elit. Quos ut labore, debitis assumenda, dolorem nulla facere soluta exercitationem excepturi provident ipsam reprehenderit repellat quisquam corrupti commodi fugiat iusto quae voluptates!"
  , sent_date := strBytes "9/29/2021, 3:58:02 PM" }

/-- `Processor::process_init_account` (processor.rs lines 32-65): check
writability and ownership, then frame and write a collection whose inbox
holds exactly the welcome mail. -/
def processInitAccount (account : AccountInfo) (program_id : String) :
    Option ProgError × List Nat :=
  if account.is_writable = false then (some notWritableErr, account.data)
  else if account.owner ≠ program_id then
    (some ProgError.incorrectProgramId, account.data)
  else writeBack account.data ⟨[welcomeMail program_id account.key], []⟩

/-- The framed-payload invariant on a buffer: the first four bytes exist
and hold a length `dl` with `4 + dl ≤ capacity`, and either `dl = 0` (no
collection yet) or the `dl` bytes after the prefix deserialize exactly
as a `MailAccount`. -/
def framedInv (data : List Nat) : Bool :=
  match readDataLength data with
  | none => false
  | some dl =>
    decide (4 + dl ≤ data.length) &&
      (dl == 0 || (accountFromSlice ((data.drop 4).take dl)).isSome)

/-- All six field lengths of a `Mail` are representable in the `u32`
length prefix. -/
def mailFits (m : Mail) : Prop :=
  m.id.length < 4294967296 ∧ m.from_address.length < 4294967296 ∧
    m.to_address.length < 4294967296 ∧ m.subject.length < 4294967296 ∧
    m.body.length < 4294967296 ∧ m.sent_date.length < 4294967296

instance (m : Mail) : Decidable (mailFits m) := by
  unfold mailFits; infer_instance

/-- Both list lengths of a `MailAccount` are representable in the `u32`
count prefix and every record fits. -/
def accFits (a : MailAccount) : Prop :=
  a.inbox.length < 4294967296 ∧ a.sent.length < 4294967296 ∧
    (∀ m ∈ a.inbox, mailFits m) ∧ (∀ m ∈ a.sent, mailFits m)

instance (a : MailAccount) : Decidable (accFits a) := by
  unfold accFits; infer_instance

theorem readU32_encodeU32 (n : Nat) (rest : List Nat)
    (h : n < 4294967296) : readU32 (encodeU32 n ++ rest) = some (n, rest) := by
  have hd : decodeU32 (n % 256) (n / 256 % 256) (n / 65536 % 256)
      (n / 16777216 % 256) = n := by
    unfold decodeU32; omega
  simp [encodeU32, readU32, hd]

theorem readBytes_append (s rest : List Nat) :
    readBytes s.length (s ++ rest) = some (s, rest) := by
  simp [readBytes, List.take_left, List.drop_left]

theorem readString_encString (s rest : List Nat)
    (h : s.length < 4294967296) :
    readString (encString s ++ rest) = some (s, rest) := by
  unfold readString encString
  rw [List.append_assoc, readU32_encodeU32 _ _ h]
  simp [readBytes_append]

theorem readMail_encMail (m : Mail) (rest : List Nat) (h : mailFits m) :
    readMail (encMail m ++ rest) = some (m, rest) := by
  obtain ⟨h1, h2, h3, h4, h5, h6⟩ := h
  unfold readMail
  simp only [encMail, List.append_assoc]
  rw [readString_encString _ _ h1]
  simp only [Option.bind_eq_bind, Option.some_bind]
  rw [readString_encString _ _ h2]
  simp only [Option.some_bind]
  rw [readString_encString _ _ h3]
  simp only [Option.some_bind]
  rw [readString_encString _ _ h4]
  simp only [Option.some_bind]
  rw [readString_encString _ _ h5]
  simp only [Option.some_bind]
  rw [readString_encString _ _ h6]
  simp only [Option.some_bind]

theorem encMails_cons (m : Mail) (ms : List Mail) :
    encMails (m :: ms) = encMail m ++ encMails ms := by
  simp [encMails]

theorem readMails_encMails (ms : List Mail) (rest : List Nat)
    (h : ∀ m ∈ ms, mailFits m) :
    readMails ms.length (encMails ms ++ rest) = some (ms, rest) := by
  induction ms generalizing rest with
  | nil => simp [readMails, encMails]
  | cons m ms ih =>
    rw [List.length_cons, encMails_cons, List.append_assoc]
    unfold readMails
    rw [readMail_encMail m _ (h m (by simp))]
    simp only [Option.bind_eq_bind, Option.some_bind]
    rw [ih _ (fun x hx => h x (by simp [hx]))]
    simp only [Option.some_bind]

theorem readMailAccount_enc (a : MailAccount) (rest : List Nat)
    (h : accFits a) :
    readMailAccount (encMailAccount a ++ rest) = some (a, rest) := by
  obtain ⟨h1, h2, h3, h4⟩ := h
  unfold readMailAccount
  simp only [encMailAccount, List.append_assoc]
  rw [readU32_encodeU32 _ _ h1]
  simp only [Option.bind_eq_bind, Option.some_bind]
  rw [readMails_encMails _ _ h3]
  simp only [Option.some_bind]
  rw [readU32_encodeU32 _ _ h2]
  simp only [Option.some_bind]
  rw [readMails_encMails _ _ h4]
  simp only [Option.some_bind]

theorem accountFromSlice_enc (a : MailAccount) (h : accFits a) :
    accountFromSlice (encMailAccount a) = some a := by
  unfold accountFromSlice
  rw [show encMailAccount a = encMailAccount a ++ [] by simp,
    readMailAccount_enc a [] h]

theorem accountFromSlice_enc_junk (a : MailAccount) (junk : List Nat)
    (h : accFits a) (hj : junk ≠ []) :
    accountFromSlice (encMailAccount a ++ junk) = none := by
  unfold accountFromSlice
  rw [readMailAccount_enc a junk h]
  cases junk with
  | nil => exact absurd rfl hj
  | cons x xs => simp

theorem encString_length (s : List Nat) :
    (encString s).length = 4 + s.length := by
  simp [encString, encodeU32]
  omega

theorem encMail_length (m : Mail) :
    (encMail m).length = 24 + m.id.length + m.from_address.length +
      m.to_address.length + m.subject.length + m.body.length +
      m.sent_date.length := by
  simp [encMail, encString_length]
  omega

theorem mailFits_of_encLt (m : Mail)
    (h : (encMail m).length < 4294967296) : mailFits m := by
  have := encMail_length m
  unfold mailFits
  omega

theorem le_encMails_of_mem (m : Mail) (ms : List Mail) (h : m ∈ ms) :
    (encMail m).length ≤ (encMails ms).length := by
  induction ms with
  | nil => cases h
  | cons x xs ih =>
    rw [encMails_cons, List.length_append]
    rcases List.mem_cons.mp h with h | h
    · subst h
      exact Nat.le_add_right _ _
    · exact Nat.le_add_left _ _ |>.trans' (ih h)

theorem length_le_encMails (ms : List Mail) :
    ms.length ≤ (encMails ms).length := by
  induction ms with
  | nil => simp [encMails]
  | cons x xs ih =>
    rw [encMails_cons, List.length_append, List.length_cons]
    have := encMail_length x
    omega

theorem encMailAccount_length (a : MailAccount) :
    (encMailAccount a).length =
      8 + (encMails a.inbox).length + (encMails a.sent).length := by
  simp [encMailAccount, encodeU32]
  omega

theorem accFits_of_encLt (a : MailAccount)
    (h : (encMailAccount a).length < 4294967296) : accFits a := by
  have hlen := encMailAccount_length a
  have hi := length_le_encMails a.inbox
  have hs := length_le_encMails a.sent
  refine ⟨by omega, by omega, ?_, ?_⟩
  · intro m hm
    have := le_encMails_of_mem m a.inbox hm
    exact mailFits_of_encLt m (by omega)
  · intro m hm
    have := le_encMails_of_mem m a.sent hm
    exact mailFits_of_encLt m (by omega)

theorem encMailAccount_ge8 (a : MailAccount) :
    8 ≤ (encMailAccount a).length := by
  have := encMailAccount_length a
  omega

theorem encodeU32_length (n : Nat) : (encodeU32 n).length = 4 := by
  simp [encodeU32]

theorem writeRegion_prefix4 (data bs : List Nat) (hb : bs.length = 4)
    (h : 4 ≤ data.length) :
    writeRegion data 0 4 bs = (bs ++ data.drop 4, true) := by
  unfold writeRegion
  have hmin : min 4 data.length = 4 := by omega
  rw [hmin]
  simp only [Nat.sub_zero, Nat.zero_add]
  rw [← hb, List.take_length, hb]
  simp [hb]

theorem writeRegion_payload_ok (buf bytes : List Nat)
    (h : 4 + bytes.length ≤ buf.length) :
    writeRegion buf 4 buf.length bytes =
      (buf.take 4 ++ bytes ++ buf.drop (4 + bytes.length), true) := by
  have hmin : min buf.length buf.length = buf.length := Nat.min_self _
  have htake : bytes.take (buf.length - 4) = bytes :=
    List.take_of_length_le (by omega)
  simp only [writeRegion, hmin, htake]
  simp only [Prod.mk.injEq, true_and, decide_eq_true_eq]
  omega

theorem writeRegion_payload_over (buf bytes : List Nat)
    (h4 : 4 ≤ buf.length) (h : buf.length < 4 + bytes.length) :
    (writeRegion buf 4 buf.length bytes).2 = false ∧
      ((writeRegion buf 4 buf.length bytes).1).take 4 = buf.take 4 := by
  have hmin : min buf.length buf.length = buf.length := Nat.min_self _
  simp only [writeRegion, hmin]
  constructor
  · simp only [decide_eq_false_iff_not]
    omega
  · have hlen : (buf.take 4).length = 4 := by
      rw [List.length_take]; omega
    rw [List.append_assoc, List.take_left' hlen]

theorem readDataLength_encodeU32 (n : Nat) (rest : List Nat)
    (h : n < 4294967296) :
    readDataLength (encodeU32 n ++ rest) = some n := by
  have hd : decodeU32 (n % 256) (n / 256 % 256) (n / 65536 % 256)
      (n / 16777216 % 256) = n := by
    unfold decodeU32; omega
  simp [encodeU32, readDataLength, hd]

theorem readDataLength_len4 (data : List Nat) (dl : Nat)
    (h : readDataLength data = some dl) : 4 ≤ data.length := by
  match data with
  | [] => simp [readDataLength] at h
  | [_] => simp [readDataLength] at h
  | [_, _] => simp [readDataLength] at h
  | [_, _, _] => simp [readDataLength] at h
  | _ :: _ :: _ :: _ :: _ => simp only [List.length_cons]; omega

theorem readCollectionE_len4 (data : List Nat) (a : MailAccount)
    (h : readCollectionE data = Except.ok a) : 4 ≤ data.length := by
  unfold readCollectionE at h
  cases hdl : readDataLength data with
  | none => rw [hdl] at h; exact absurd h (by simp)
  | some dl => exact readDataLength_len4 data dl hdl

theorem writeBack_ok (data : List Nat) (a : MailAccount)
    (h32 : (encMailAccount a).length < 4294967296)
    (hfit : 4 + (encMailAccount a).length ≤ data.length) :
    writeBack data a =
      (none, encodeU32 (encMailAccount a).length ++ encMailAccount a ++
        data.drop (4 + (encMailAccount a).length)) := by
  have hlen1 : (encodeU32 (encMailAccount a).length ++ data.drop 4).length
      = data.length := by
    rw [List.length_append, encodeU32_length, List.length_drop]
    omega
  have ht : (encodeU32 (encMailAccount a).length ++ data.drop 4).take 4
      = encodeU32 (encMailAccount a).length :=
    List.take_left' (encodeU32_length _)
  have hd : (encodeU32 (encMailAccount a).length ++ data.drop 4).drop
      (4 + (encMailAccount a).length) = data.drop
      (4 + (encMailAccount a).length) := by
    rw [show (4 : Nat) + (encMailAccount a).length =
        (encodeU32 (encMailAccount a).length).length +
          (encMailAccount a).length from by rw [encodeU32_length],
      List.drop_append, List.drop_drop, encodeU32_length, Nat.add_comm]
  simp only [writeBack, if_neg (show ¬ 4294967296 ≤
      (encMailAccount a).length by omega),
    if_neg (show ¬ data.length < 4 by omega),
    writeRegion_prefix4 data (encodeU32 (encMailAccount a).length)
      (encodeU32_length _) (show 4 ≤ data.length by omega),
    writeRegion_payload_ok (encodeU32 (encMailAccount a).length ++
      data.drop 4) (encMailAccount a) (by rw [hlen1]; omega),
    if_true, ht, hd]

theorem writeBack_none_inv (data : List Nat) (a : MailAccount)
    (d : List Nat) (h : writeBack data a = (none, d)) :
    (encMailAccount a).length < 4294967296 ∧
      4 + (encMailAccount a).length ≤ data.length ∧
      d = encodeU32 (encMailAccount a).length ++ encMailAccount a ++
        data.drop (4 + (encMailAccount a).length) := by
  by_cases h32 : 4294967296 ≤ (encMailAccount a).length
  · simp only [writeBack, if_pos h32] at h
    exact absurd h (by simp)
  · by_cases h4 : data.length < 4
    · simp only [writeBack, if_neg h32, if_pos h4] at h
      exact absurd h (by simp)
    · by_cases hfit : 4 + (encMailAccount a).length ≤ data.length
      · rw [writeBack_ok data a (by omega) hfit] at h
        exact ⟨by omega, hfit, (Prod.mk.injEq _ _ _ _ ▸ h).2.symm⟩
      · have hlen1 : (encodeU32 (encMailAccount a).length ++
            data.drop 4).length = data.length := by
          rw [List.length_append, encodeU32_length, List.length_drop]
          omega
        have hov := writeRegion_payload_over
          (encodeU32 (encMailAccount a).length ++ data.drop 4)
          (encMailAccount a) (by rw [hlen1]; omega) (by rw [hlen1]; omega)
        simp only [writeBack, if_neg h32, if_neg h4,
          writeRegion_prefix4 data (encodeU32 (encMailAccount a).length)
            (encodeU32_length _) (show 4 ≤ data.length by omega),
          hov.1, if_false] at h
        exact absurd h (by simp)

theorem readCollectionE_frame (a : MailAccount) (tail : List Nat)
    (h32 : (encMailAccount a).length < 4294967296) :
    readCollectionE (encodeU32 (encMailAccount a).length ++
      encMailAccount a ++ tail) = Except.ok a := by
  have hfits : accFits a := accFits_of_encLt a h32
  have h8 := encMailAccount_ge8 a
  have hlen : (encodeU32 (encMailAccount a).length ++
      (encMailAccount a ++ tail)).length =
      4 + (encMailAccount a).length + tail.length := by
    simp [encodeU32_length]
    omega
  have hdrop : (encodeU32 (encMailAccount a).length ++
      (encMailAccount a ++ tail)).drop 4 = encMailAccount a ++ tail := by
    rw [show (4 : Nat) = (encodeU32 (encMailAccount a).length).length from
      (encodeU32_length _).symm, List.drop_left]
  rw [List.append_assoc]
  unfold readCollectionE
  rw [readDataLength_encodeU32 _ _ h32]
  show (if 0 < (encMailAccount a).length then _ else _) = _
  rw [if_pos (by omega), if_neg (by omega), hdrop, List.take_left,
    accountFromSlice_enc a hfits]

theorem readCollectionE_short (data : List Nat)
    (hdl : readDataLength data = none) :
    readCollectionE data = Except.error ProgError.panicked := by
  unfold readCollectionE
  rw [hdl]

theorem readCollectionE_zero (data : List Nat)
    (hdl : readDataLength data = some 0) :
    readCollectionE data = Except.ok ⟨[], []⟩ := by
  unfold readCollectionE
  rw [hdl]
  show (if (0 : Nat) < 0 then _ else _) = _
  rw [if_neg (by omega)]

theorem readCollectionE_oob (data : List Nat) (dl : Nat)
    (hdl : readDataLength data = some dl) (h0 : 0 < dl)
    (hb : data.length < 4 + dl) :
    readCollectionE data = Except.error ProgError.panicked := by
  unfold readCollectionE
  rw [hdl]
  show (if 0 < dl then _ else _) = _
  rw [if_pos h0, if_pos hb]

theorem readCollectionE_pos (data : List Nat) (dl : Nat) (a : MailAccount)
    (hdl : readDataLength data = some dl) (h0 : 0 < dl)
    (hb : 4 + dl ≤ data.length)
    (hs : accountFromSlice ((data.drop 4).take dl) = some a) :
    readCollectionE data = Except.ok a := by
  unfold readCollectionE
  rw [hdl]
  show (if 0 < dl then _ else _) = _
  rw [if_pos h0, if_neg (by omega), hs]

theorem readCollectionE_pos_bad (data : List Nat) (dl : Nat)
    (hdl : readDataLength data = some dl) (h0 : 0 < dl)
    (hb : 4 + dl ≤ data.length)
    (hs : accountFromSlice ((data.drop 4).take dl) = none) :
    readCollectionE data = Except.error ProgError.borshIo := by
  unfold readCollectionE
  rw [hdl]
  show (if 0 < dl then _ else _) = _
  rw [if_pos h0, if_neg (by omega), hs]

theorem readCollectionE_ok_inv (data : List Nat) (a : MailAccount)
    (h : readCollectionE data = Except.ok a) :
    ∃ dl, readDataLength data = some dl ∧ 4 + dl ≤ data.length ∧
      ((dl = 0 ∧ a = ⟨[], []⟩) ∨
        (0 < dl ∧ accountFromSlice ((data.drop 4).take dl) = some a)) := by
  cases hdl : readDataLength data with
  | none =>
    rw [readCollectionE_short data hdl] at h
    exact absurd h (by simp)
  | some dl =>
    by_cases h0 : 0 < dl
    · by_cases hb : data.length < 4 + dl
      · rw [readCollectionE_oob data dl hdl h0 hb] at h
        exact absurd h (by simp)
      · cases hs : accountFromSlice ((data.drop 4).take dl) with
        | none =>
          rw [readCollectionE_pos_bad data dl hdl h0 (by omega) hs] at h
          exact absurd h (by simp)
        | some a' =>
          rw [readCollectionE_pos data dl a' hdl h0 (by omega) hs] at h
          have ha : a' = a := by
            exact Except.ok.inj h
          subst ha
          exact ⟨dl, rfl, by omega, Or.inr ⟨h0, hs⟩⟩
    · have hz : dl = 0 := by omega
      subst hz
      rw [readCollectionE_zero data hdl] at h
      have ha : a = (⟨[], []⟩ : MailAccount) := (Except.ok.inj h).symm
      have h4 := readDataLength_len4 data 0 hdl
      exact ⟨0, rfl, by omega, Or.inl ⟨rfl, ha⟩⟩

theorem framedInv_of_read (data : List Nat) (a : MailAccount)
    (h : readCollectionE data = Except.ok a) : framedInv data = true := by
  obtain ⟨dl, hdl, hb, hcase⟩ := readCollectionE_ok_inv data a h
  unfold framedInv
  rw [hdl]
  rcases hcase with ⟨hz, _⟩ | ⟨_, hs⟩
  · subst hz
    simp [hb]
  · simp [hb, hs]

theorem appendPhase_err (data : List Nat) (mail : Mail) (t : Target)
    (e : ProgError) (h : readCollectionE data = Except.error e) :
    appendPhase data mail t = (some e, data) := by
  unfold appendPhase
  rw [h]

theorem appendPhase_ok_eq (data : List Nat) (mail : Mail) (t : Target)
    (a : MailAccount) (h : readCollectionE data = Except.ok a) :
    appendPhase data mail t = writeBack data (pushMail t a mail) := by
  unfold appendPhase
  rw [h]

theorem appendPhase_none_inv (data : List Nat) (mail : Mail) (t : Target)
    (d : List Nat) (h : appendPhase data mail t = (none, d)) :
    ∃ a, readCollectionE data = Except.ok a ∧
      writeBack data (pushMail t a mail) = (none, d) := by
  unfold appendPhase at h
  cases hE : readCollectionE data with
  | error e =>
    rw [hE] at h
    exact absurd h (by simp)
  | ok a =>
    rw [hE] at h
    exact ⟨a, rfl, h⟩

theorem appendPhase_readback (data : List Nat) (mail : Mail) (t : Target)
    (a : MailAccount) (d : List Nat)
    (hread : readCollectionE data = Except.ok a)
    (h : appendPhase data mail t = (none, d)) :
    readCollectionE d = Except.ok (pushMail t a mail) := by
  rw [appendPhase_ok_eq data mail t a hread] at h
  obtain ⟨h32, hfit, hd⟩ :=
    writeBack_none_inv data (pushMail t a mail) d h
  subst hd
  exact readCollectionE_frame _ _ h32

theorem readDataLength_zero4 (data : List Nat)
    (h : data.take 4 = [0, 0, 0, 0]) : readDataLength data = some 0 := by
  match data with
  | [] => simp [List.take] at h
  | [_] => simp [List.take] at h
  | [_, _] => simp [List.take] at h
  | [_, _, _] => simp [List.take] at h
  | b0 :: b1 :: b2 :: b3 :: rest =>
    simp [List.take] at h
    obtain ⟨h0, h1, h2, h3⟩ := h
    subst h0; subst h1; subst h2; subst h3
    simp [readDataLength, decodeU32]

theorem processSendMail_senderFail (sender receiver : AccountInfo)
    (mail : Mail) (pid : String) (e : ProgError) (d : List Nat)
    (hw : sender.is_writable = true) (ho : sender.owner = pid)
    (hw2 : receiver.is_writable = true) (ho2 : receiver.owner = pid)
    (h1 : appendPhase sender.data mail Target.sentBox = (some e, d)) :
    processSendMail sender receiver mail pid =
      ⟨some e, d, receiver.data⟩ := by
  unfold processSendMail
  rw [if_neg (by simp [hw]), if_neg (by simp [ho]), if_neg (by simp [hw2]),
    if_neg (by simp [ho2]), h1]

theorem processSendMail_receiverRes (sender receiver : AccountInfo)
    (mail : Mail) (pid : String) (d : List Nat)
    (r2 : Option ProgError × List Nat)
    (hw : sender.is_writable = true) (ho : sender.owner = pid)
    (hw2 : receiver.is_writable = true) (ho2 : receiver.owner = pid)
    (h1 : appendPhase sender.data mail Target.sentBox = (none, d))
    (h2 : appendPhase receiver.data mail Target.inboxBox = r2) :
    processSendMail sender receiver mail pid =
      ⟨r2.1, d, r2.2⟩ := by
  unfold processSendMail
  rw [if_neg (by simp [hw]), if_neg (by simp [ho]), if_neg (by simp [hw2]),
    if_neg (by simp [ho2]), h1]
  show (match appendPhase receiver.data mail Target.inboxBox with
    | (some e, d2) => SendResult.mk (some e) d d2
    | (none, d2) => SendResult.mk none d d2) = SendResult.mk r2.1 d r2.2
  rw [h2]
  cases r2 with
  | mk o d2 => cases o <;> rfl

theorem writeBack_over (data : List Nat) (a : MailAccount)
    (h32 : (encMailAccount a).length < 4294967296) (h4 : 4 ≤ data.length)
    (hov : data.length < 4 + (encMailAccount a).length) :
    (writeBack data a).1 = some ProgError.borshIo ∧
      ((writeBack data a).2).take 4 =
        encodeU32 (encMailAccount a).length := by
  have hlen1 : (encodeU32 (encMailAccount a).length ++ data.drop 4).length
      = data.length := by
    rw [List.length_append, encodeU32_length, List.length_drop]
    omega
  have hpo := writeRegion_payload_over
    (encodeU32 (encMailAccount a).length ++ data.drop 4)
    (encMailAccount a) (by rw [hlen1]; omega) (by rw [hlen1]; omega)
  have hwb : writeBack data a = (some ProgError.borshIo,
      (writeRegion (encodeU32 (encMailAccount a).length ++ data.drop 4) 4
        (encodeU32 (encMailAccount a).length ++ data.drop 4).length
        (encMailAccount a)).1) := by
    simp only [writeBack, if_neg (show ¬ 4294967296 ≤
        (encMailAccount a).length by omega),
      if_neg (show ¬ data.length < 4 by omega),
      writeRegion_prefix4 data (encodeU32 (encMailAccount a).length)
        (encodeU32_length _) h4, hpo.1]
    simp
  rw [hwb]
  exact ⟨rfl, by rw [hpo.2, List.take_left' (encodeU32_length _)]⟩

/-! ## The claims -/

/-- A minimal mail record (all six fields empty), used as concrete
input in witnesses and counterexamples. -/
def mail0 : Mail := ⟨[], [], [], [], [], []⟩

/-- C1 (amended): within one append, a failure at any step before the
write — short buffer, out-of-range prefix, undecodable payload — leaves
the buffer byte-for-byte unchanged and surfaces that step's error; but
when the new encoding does not fit, the operation fails with the borsh
write error (the `BufferOverflow` of the spec) only after committing the
4-byte length prefix (and the fitting prefix of the payload), so on that
failing path the buffer is not left unchanged. -/
theorem claim1_amended (data : List Nat) (mail : Mail) (t : Target) :
    (∀ e, readCollectionE data = Except.error e →
      appendPhase data mail t = (some e, data)) ∧
    (∀ a, readCollectionE data = Except.ok a →
      (encMailAccount (pushMail t a mail)).length < 4294967296 →
      data.length < 4 + (encMailAccount (pushMail t a mail)).length →
      (appendPhase data mail t).1 = some ProgError.borshIo ∧
        ((appendPhase data mail t).2).take 4 =
          encodeU32 (encMailAccount (pushMail t a mail)).length) := by
  constructor
  · intro e he
    exact appendPhase_err data mail t e he
  · intro a ha h32 hov
    have h4 : 4 ≤ data.length := readCollectionE_len4 data a ha
    rw [appendPhase_ok_eq data mail t a ha]
    exact writeBack_over data (pushMail t a mail) h32 h4 hov

/-- C1 witness: on a zeroed 10-byte buffer (which reads as the empty
collection) an append of `mail0` overflows: the result is the borsh
write error and the first four buffer bytes now hold the new length. -/
theorem claim1_witness :
    readCollectionE (List.replicate 10 0) = Except.ok ⟨[], []⟩ ∧
    (appendPhase (List.replicate 10 0) mail0 Target.sentBox).1 =
      some ProgError.borshIo ∧
    ((appendPhase (List.replicate 10 0) mail0 Target.sentBox).2).take 4 =
      encodeU32 (encMailAccount
        (pushMail Target.sentBox ⟨[], []⟩ mail0)).length := by
  have h := (claim1_amended (List.replicate 10 0) mail0 Target.sentBox).2
    ⟨[], []⟩ (by decide) (by decide) (by decide)
  exact ⟨by decide, h.1, h.2⟩

/-- Sender account with a 10-byte zeroed buffer. -/
def senderSmall : AccountInfo := ⟨"K", true, "P", List.replicate 10 0⟩

/-- Receiver account with a 100-byte zeroed buffer. -/
def receiverBig : AccountInfo := ⟨"R", true, "P", List.replicate 100 0⟩

/-- C1 counterexample: a `SendMail` whose sender-side append overflows
fails with the write error, yet the sender's buffer bytes differ from
what they were before the call — the 4-byte length prefix and a partial
payload were committed, contradicting the claimed byte-for-byte
unchanged buffer on every failing path. -/
theorem claim1_counterexample :
    (processSendMail senderSmall receiverBig mail0 "P").res =
      some ProgError.borshIo ∧
    (processSendMail senderSmall receiverBig mail0 "P").senderData ≠
      senderSmall.data := by
  decide

/-- C2 (amended): a corrupted or adversarial length prefix whose bound
`offset + 4 + declared_length` exceeds the buffer's capacity never causes
an out-of-bounds access and never reaches the write step, but the
failure is the Rust slice-bounds panic (modelled `ProgError.panicked`),
i.e. a trap, not a returned `BufferOverflow` error; the buffer is left
unchanged. -/
theorem claim2_amended (data : List Nat) (mail : Mail) (t : Target)
    (dl : Nat) (hdl : readDataLength data = some dl) (h0 : 0 < dl)
    (hb : data.length < 4 + dl) :
    appendPhase data mail t = (some ProgError.panicked, data) :=
  appendPhase_err data mail t _ (readCollectionE_oob data dl hdl h0 hb)

/-- C2 witness: a 4-byte buffer whose prefix declares 65535 bytes makes
the append panic at the read step, leaving the buffer unchanged. -/
theorem claim2_witness :
    readDataLength [255, 255, 0, 0] = some 65535 ∧
    appendPhase [255, 255, 0, 0] mail0 Target.inboxBox =
      (some ProgError.panicked, [255, 255, 0, 0]) :=
  ⟨by decide, claim2_amended [255, 255, 0, 0] mail0 Target.inboxBox 65535
    (by decide) (by decide) (by decide)⟩

/-- C2 counterexample: on the out-of-range prefix the read step fails
with the modelled panic (a Rust slice-bounds abort), which is a distinct
outcome from the borsh-error return used for write overflows — the read
traps instead of returning a `BufferOverflow` error as claimed. -/
theorem claim2_counterexample :
    appendPhase [255, 255, 0, 0] mail0 Target.sentBox =
      (some ProgError.panicked, [255, 255, 0, 0]) ∧
    ProgError.panicked ≠ ProgError.borshIo := by
  decide

/-- C3: on a buffer holding a decodable collection `(inbox I, sent S)`,
a successful append leaves the buffer holding exactly the same
collection with the record appended to the end of the designated list —
`⟨I, S ++ [r]⟩` for the sender side, `⟨I ++ [r], S⟩` for the receiver
side — so prior elements, their order, and the other list are all
preserved; iterating the sender-side append therefore yields
`sent = [r1, r2]`. -/
theorem claim3_append (data : List Nat) (mail : Mail) (t : Target)
    (d : List Nat) (I S : List Mail)
    (hread : readCollection data = some ⟨I, S⟩)
    (h : appendPhase data mail t = (none, d)) :
    readCollection d = some (pushMail t ⟨I, S⟩ mail) ∧
      pushMail Target.sentBox ⟨I, S⟩ mail = ⟨I, S ++ [mail]⟩ ∧
      pushMail Target.inboxBox ⟨I, S⟩ mail = ⟨I ++ [mail], S⟩ := by
  have hE : readCollectionE data = Except.ok ⟨I, S⟩ := by
    unfold readCollection at hread
    cases hE : readCollectionE data with
    | error e =>
      rw [hE] at hread
      exact absurd hread (by simp [Except.toOption])
    | ok a =>
      rw [hE] at hread
      simp only [Except.toOption, Option.some.injEq] at hread
      rw [hread]
  have hr := appendPhase_readback data mail t ⟨I, S⟩ d hE h
  refine ⟨?_, rfl, rfl⟩
  unfold readCollection
  rw [hr]
  rfl

/-- C3 witness: appending `mail0` to a zeroed 100-byte buffer (the empty
collection) succeeds and the buffer then reads back as
`⟨[], [mail0]⟩`. -/
theorem claim3_witness :
    readCollection (List.replicate 100 0) = some ⟨[], []⟩ ∧
    appendPhase (List.replicate 100 0) mail0 Target.sentBox =
      (none, (appendPhase (List.replicate 100 0) mail0 Target.sentBox).2) ∧
    readCollection
        ((appendPhase (List.replicate 100 0) mail0 Target.sentBox).2) =
      some (pushMail Target.sentBox ⟨[], []⟩ mail0) := by
  have h1 : readCollection (List.replicate 100 0) = some ⟨[], []⟩ := by
    decide
  have h0 : (appendPhase (List.replicate 100 0) mail0 Target.sentBox).1 =
      none := by decide
  have h2 : appendPhase (List.replicate 100 0) mail0 Target.sentBox =
      (none, (appendPhase (List.replicate 100 0) mail0 Target.sentBox).2) := by
    rw [← h0]
  exact ⟨h1, h2,
    (claim3_append (List.replicate 100 0) mail0 Target.sentBox _ [] [] h1
      h2).1⟩

/-- C4 (amended): the framed-payload invariant — the 32-bit length field
equals the exact byte length of the collection encoding after it (or is
0), and `4 + length_field ≤ capacity` — holds after every committed
write: after every successful append phase (so after the sender write of
a `SendMail` even if the receiver side later fails, and after both
writes of a successful one) and after every successful `InitAccount`.
It does not hold after the partial write of a failing overflow path. -/
theorem claim4_amended (data : List Nat) (mail : Mail) (t : Target)
    (d : List Nat) (account : AccountInfo) (pid : String)
    (d2 : List Nat) :
    (appendPhase data mail t = (none, d) → framedInv d = true) ∧
    (processInitAccount account pid = (none, d2) →
      framedInv d2 = true) := by
  constructor
  · intro h
    obtain ⟨a, hread, hwb⟩ := appendPhase_none_inv data mail t d h
    obtain ⟨h32, hfit, hd⟩ := writeBack_none_inv data _ d hwb
    subst hd
    exact framedInv_of_read _ _ (readCollectionE_frame _ _ h32)
  · intro h
    unfold processInitAccount at h
    by_cases hw : account.is_writable = false
    · rw [if_pos hw] at h
      exact absurd h (by simp)
    · rw [if_neg hw] at h
      by_cases ho : account.owner ≠ pid
      · rw [if_pos ho] at h
        exact absurd h (by simp)
      · rw [if_neg ho] at h
        obtain ⟨h32, hfit, hd⟩ := writeBack_none_inv _ _ _ h
        subst hd
        exact framedInv_of_read _ _ (readCollectionE_frame _ _ h32)

/-- Sender account with a 12-byte zeroed buffer. -/
def senderTiny : AccountInfo := ⟨"K2", true, "P", List.replicate 12 0⟩

/-- Receiver account with a 120-byte zeroed buffer. -/
def receiverBig2 : AccountInfo := ⟨"R2", true, "P", List.replicate 120 0⟩

/-- C4 counterexample: a `SendMail` whose sender-side write overflows
performs a write (the buffer changes) after which the framed-payload
invariant is false — the committed length field declares 32 bytes while
`4 + 32` exceeds the 12-byte capacity — refuting the claim for writes
performed on failing paths. -/
theorem claim4_counterexample :
    (processSendMail senderTiny receiverBig2 mail0 "P").res =
      some ProgError.borshIo ∧
    (processSendMail senderTiny receiverBig2 mail0 "P").senderData ≠
      senderTiny.data ∧
    framedInv ((processSendMail senderTiny receiverBig2 mail0
      "P").senderData) = false := by
  decide

/-- Account with a 1000-byte zeroed buffer, writable and program
owned. -/
def accW : AccountInfo := ⟨"K", true, "P", List.replicate 1000 0⟩

/-- C4 witness: the invariant holds after a successful append to a
zeroed 60-byte buffer and after a successful `InitAccount` on a
capacity-1000 buffer. -/
theorem claim4_witness :
    appendPhase (List.replicate 60 0) mail0 Target.inboxBox =
      (none, (appendPhase (List.replicate 60 0) mail0 Target.inboxBox).2) ∧
    framedInv ((appendPhase (List.replicate 60 0) mail0
      Target.inboxBox).2) = true ∧
    processInitAccount accW "P" =
      (none, (processInitAccount accW "P").2) ∧
    framedInv ((processInitAccount accW "P").2) = true := by
  have h0 : (appendPhase (List.replicate 60 0) mail0 Target.inboxBox).1 =
      none := by decide
  have h : appendPhase (List.replicate 60 0) mail0 Target.inboxBox =
      (none, (appendPhase (List.replicate 60 0) mail0 Target.inboxBox).2) := by
    rw [← h0]
  have hi0 : (processInitAccount accW "P").1 = none := by decide
  have hi : processInitAccount accW "P" =
      (none, (processInitAccount accW "P").2) := by
    rw [← hi0]
  exact ⟨h,
    (claim4_amended (List.replicate 60 0) mail0 Target.inboxBox _ accW "P"
      (processInitAccount accW "P").2).1 h,
    hi,
    (claim4_amended (List.replicate 60 0) mail0 Target.inboxBox
      (appendPhase (List.replicate 60 0) mail0 Target.inboxBox).2 accW "P"
      _).2 hi⟩

/-- C5: the codecs round-trip — decoding the encoding of any record
whose six field byte-lengths fit the 32-bit prefix returns the record,
and likewise for any valid collection of such records (its two list
counts fitting the 32-bit count prefix, as the format requires). -/
theorem claim5_roundtrip (r : Mail) (c : MailAccount) :
    (mailFits r → mailFromSlice (encMail r) = some r) ∧
    (accFits c → accountFromSlice (encMailAccount c) = some c) := by
  constructor
  · intro h
    unfold mailFromSlice
    rw [show encMail r = encMail r ++ [] by simp, readMail_encMail r [] h]
  · intro h
    exact accountFromSlice_enc c h

/-- A small concrete record with non-empty fields. -/
def mailW : Mail :=
  ⟨strBytes "id-1", strBytes "alice", strBytes "bob",
    strBytes "hi", strBytes "hello bob", strBytes "10/12/2026"⟩

/-- C5 witness: the round-trip at a concrete record and a concrete
two-element collection. -/
theorem claim5_witness :
    mailFits mailW ∧ mailFromSlice (encMail mailW) = some mailW ∧
    accFits ⟨[mailW], [mailW]⟩ ∧
    accountFromSlice (encMailAccount ⟨[mailW], [mailW]⟩) =
      some ⟨[mailW], [mailW]⟩ := by
  have h := claim5_roundtrip mailW ⟨[mailW], [mailW]⟩
  exact ⟨by decide, h.1 (by decide), by decide, h.2 (by decide)⟩

/-- C6: a successful `InitAccount` leaves the buffer holding a framed
collection that reads back as exactly one inbox record — the welcome
mail, whose subject is "Welcome to SolMail" — and an empty sent list. -/
theorem claim6_seed (account : AccountInfo) (pid : String) (d : List Nat)
    (h : processInitAccount account pid = (none, d)) :
    readCollection d = some ⟨[welcomeMail pid account.key], []⟩ ∧
      (welcomeMail pid account.key).subject =
        strBytes "Welcome to SolMail" := by
  refine ⟨?_, rfl⟩
  unfold processInitAccount at h
  by_cases hw : account.is_writable = false
  · rw [if_pos hw] at h
    exact absurd h (by simp)
  · rw [if_neg hw] at h
    by_cases ho : account.owner ≠ pid
    · rw [if_pos ho] at h
      exact absurd h (by simp)
    · rw [if_neg ho] at h
      obtain ⟨h32, hfit, hd⟩ := writeBack_none_inv _ _ _ h
      subst hd
      unfold readCollection
      rw [readCollectionE_frame _ _ h32]
      rfl

/-- C6 witness: seeding a writable, program-owned, capacity-1000 zeroed
buffer succeeds and reads back as the single welcome mail with subject
"Welcome to SolMail" and an empty sent list. -/
theorem claim6_witness :
    processInitAccount accW "P" =
      (none, (processInitAccount accW "P").2) ∧
    readCollection ((processInitAccount accW "P").2) =
      some ⟨[welcomeMail "P" "K"], []⟩ ∧
    (welcomeMail "P" "K").subject = strBytes "Welcome to SolMail" := by
  have hi0 : (processInitAccount accW "P").1 = none := by decide
  have hi : processInitAccount accW "P" =
      (none, (processInitAccount accW "P").2) := by
    rw [← hi0]
  have h := claim6_seed accW "P" (processInitAccount accW "P").2 hi
  exact ⟨hi, h.1, h.2⟩

/-- C7 (amended): in `SendMail` the sender-side append commits before
the receiver side is touched and there is no cross-buffer atomicity: if
the receiver-side step fails at its read/decode stage (before the
receiver write) after the sender-side write succeeded, the sender's
buffer is left mutated (the record appended to its sent list) while the
receiver's buffer is byte-for-byte unchanged.  If the receiver side
fails at its write instead, the receiver's length prefix is committed,
so the receiver buffer is not unchanged in general (counterexample). -/
theorem claim7_amended (sender receiver : AccountInfo) (mail : Mail)
    (pid : String) (d : List Nat) (e : ProgError) (I S : List Mail)
    (hw : sender.is_writable = true) (ho : sender.owner = pid)
    (hw2 : receiver.is_writable = true) (ho2 : receiver.owner = pid)
    (hsr : readCollectionE sender.data = Except.ok ⟨I, S⟩)
    (hs : appendPhase sender.data mail Target.sentBox = (none, d))
    (hr : readCollectionE receiver.data = Except.error e) :
    processSendMail sender receiver mail pid =
      ⟨some e, d, receiver.data⟩ ∧
      readCollectionE d = Except.ok ⟨I, S ++ [mail]⟩ := by
  constructor
  · have h2 := appendPhase_err receiver.data mail Target.inboxBox e hr
    exact processSendMail_receiverRes sender receiver mail pid d
      (some e, receiver.data) hw ho hw2 ho2 hs h2
  · exact appendPhase_readback sender.data mail Target.sentBox ⟨I, S⟩ d
      hsr hs

/-- Sender account with a 100-byte zeroed buffer. -/
def senderA2 : AccountInfo := ⟨"A2", true, "P", List.replicate 100 0⟩

/-- Receiver account whose prefix declares 5 payload bytes that do not
decode as a collection. -/
def receiverBadPrefix : AccountInfo :=
  ⟨"B2", true, "P", [5, 0, 0, 0, 1, 2, 3, 4, 5]⟩

/-- C7 witness: with a receiver buffer that fails decoding, `SendMail`
fails after the sender write: the sender buffer reads back with the mail
in its sent list and the receiver buffer is returned unchanged. -/
theorem claim7_witness :
    processSendMail senderA2 receiverBadPrefix mail0 "P" =
      ⟨some ProgError.borshIo,
        (appendPhase senderA2.data mail0 Target.sentBox).2,
        receiverBadPrefix.data⟩ ∧
    readCollectionE ((appendPhase senderA2.data mail0 Target.sentBox).2) =
      Except.ok ⟨[], [mail0]⟩ := by
  have h0 : (appendPhase senderA2.data mail0 Target.sentBox).1 = none := by
    decide
  have hs : appendPhase senderA2.data mail0 Target.sentBox =
      (none, (appendPhase senderA2.data mail0 Target.sentBox).2) := by
    rw [← h0]
  exact claim7_amended senderA2 receiverBadPrefix mail0 "P"
    (appendPhase senderA2.data mail0 Target.sentBox).2 ProgError.borshIo
    [] [] rfl rfl rfl rfl (by decide) hs (by decide)

/-- Sender account with a 100-byte zeroed buffer (counterexample
variant). -/
def senderA : AccountInfo := ⟨"A", true, "P", List.replicate 100 0⟩

/-- Receiver account with a 10-byte zeroed buffer, too small for the
appended collection. -/
def receiverTiny : AccountInfo := ⟨"B", true, "P", List.replicate 10 0⟩

/-- C7 counterexample: when the receiver-side step fails at its write
(overflow) after the sender write succeeded, the receiver's buffer is
NOT byte-for-byte unchanged — its length prefix was committed —
refuting the unconditional claim; the sender is mutated as claimed. -/
theorem claim7_counterexample :
    (processSendMail senderA receiverTiny mail0 "P").res =
      some ProgError.borshIo ∧
    readCollection
        ((processSendMail senderA receiverTiny mail0 "P").senderData) =
      some ⟨[], [mail0]⟩ ∧
    (processSendMail senderA receiverTiny mail0 "P").receiverData ≠
      receiverTiny.data := by
  decide

/-- C8: a buffer whose first four bytes are all zero is read as the
empty collection — not a decode error — and the append then proceeds to
the encode-write step applied to the empty collection with the record
appended to the designated list. -/
theorem claim8_zeroPrefix (data : List Nat) (mail : Mail) (t : Target)
    (h : data.take 4 = [0, 0, 0, 0]) :
    readCollection data = some ⟨[], []⟩ ∧
      appendPhase data mail t =
        writeBack data (pushMail t ⟨[], []⟩ mail) := by
  have hdl := readDataLength_zero4 data h
  have hE := readCollectionE_zero data hdl
  refine ⟨?_, appendPhase_ok_eq data mail t ⟨[], []⟩ hE⟩
  unfold readCollection
  rw [hE]
  rfl

/-- C8 witness: an 8-byte zeroed buffer reads as the empty collection
and its append runs the encode-write step on `⟨[], [mail0]⟩`. -/
theorem claim8_witness :
    (List.replicate 8 0).take 4 = [0, 0, 0, 0] ∧
    readCollection (List.replicate 8 0) = some ⟨[], []⟩ ∧
    appendPhase (List.replicate 8 0) mail0 Target.sentBox =
      writeBack (List.replicate 8 0)
        (pushMail Target.sentBox ⟨[], []⟩ mail0) := by
  have h := claim8_zeroPrefix (List.replicate 8 0) mail0 Target.sentBox
    (by decide)
  exact ⟨by decide, h.1, h.2⟩

/-- C9: both entry points check permissions before touching any buffer
byte, in the code's order (writability before ownership; sender before
receiver): a non-writable account (all earlier checks passing) fails
with `NotWritable`, a wrongly-owned writable account fails with
`IncorrectProgramId`, and in every such case both buffers are returned
byte-for-byte unchanged. -/
theorem claim9_checks (account sender receiver : AccountInfo)
    (mail : Mail) (pid : String) :
    (account.is_writable = false →
      processInitAccount account pid =
        (some notWritableErr, account.data)) ∧
    (account.is_writable = true → account.owner ≠ pid →
      processInitAccount account pid =
        (some ProgError.incorrectProgramId, account.data)) ∧
    (sender.is_writable = false →
      processSendMail sender receiver mail pid =
        ⟨some notWritableErr, sender.data, receiver.data⟩) ∧
    (sender.is_writable = true → sender.owner ≠ pid →
      processSendMail sender receiver mail pid =
        ⟨some ProgError.incorrectProgramId, sender.data,
          receiver.data⟩) ∧
    (sender.is_writable = true → sender.owner = pid →
      receiver.is_writable = false →
      processSendMail sender receiver mail pid =
        ⟨some notWritableErr, sender.data, receiver.data⟩) ∧
    (sender.is_writable = true → sender.owner = pid →
      receiver.is_writable = true → receiver.owner ≠ pid →
      processSendMail sender receiver mail pid =
        ⟨some ProgError.incorrectProgramId, sender.data,
          receiver.data⟩) := by
  refine ⟨?_, ?_, ?_, ?_, ?_, ?_⟩
  · intro h
    unfold processInitAccount
    rw [if_pos h]
  · intro h ho
    unfold processInitAccount
    rw [if_neg (by simp [h]), if_pos ho]
  · intro h
    unfold processSendMail
    rw [if_pos h]
  · intro h ho
    unfold processSendMail
    rw [if_neg (by simp [h]), if_pos ho]
  · intro h ho h2
    unfold processSendMail
    rw [if_neg (by simp [h]), if_neg (by simp [ho]), if_pos h2]
  · intro h ho h2 ho2
    unfold processSendMail
    rw [if_neg (by simp [h]), if_neg (by simp [ho]),
      if_neg (by simp [h2]), if_pos ho2]

/-- Non-writable account. -/
def accNW : AccountInfo := ⟨"K", false, "P", [1, 2, 3]⟩

/-- Writable account owned by a different program. -/
def accWO : AccountInfo := ⟨"K", true, "Q", [1, 2, 3]⟩

/-- Writable, correctly-owned account with a zero prefix. -/
def accOK : AccountInfo := ⟨"K", true, "P", [0, 0, 0, 0]⟩

/-- C9 witness: all six permission-failure cases at concrete accounts,
each returning the expected error with both buffers unchanged. -/
theorem claim9_witness :
    processInitAccount accNW "P" = (some notWritableErr, accNW.data) ∧
    processInitAccount accWO "P" =
      (some ProgError.incorrectProgramId, accWO.data) ∧
    processSendMail accNW accOK mail0 "P" =
      ⟨some notWritableErr, accNW.data, accOK.data⟩ ∧
    processSendMail accWO accOK mail0 "P" =
      ⟨some ProgError.incorrectProgramId, accWO.data, accOK.data⟩ ∧
    processSendMail accOK accNW mail0 "P" =
      ⟨some notWritableErr, accOK.data, accNW.data⟩ ∧
    processSendMail accOK accWO mail0 "P" =
      ⟨some ProgError.incorrectProgramId, accOK.data, accWO.data⟩ := by
  refine ⟨(claim9_checks accNW accOK accOK mail0 "P").1 rfl,
    (claim9_checks accWO accOK accOK mail0 "P").2.1 rfl (by decide),
    (claim9_checks accOK accNW accOK mail0 "P").2.2.1 rfl,
    (claim9_checks accOK accWO accOK mail0 "P").2.2.2.1 rfl (by decide),
    (claim9_checks accOK accOK accNW mail0 "P").2.2.2.2.1 rfl rfl rfl,
    (claim9_checks accOK accOK accWO mail0 "P").2.2.2.2.2 rfl rfl rfl
      (by decide)⟩

/-- C10: decoding is exact, never prefix-tolerant — when the length
field declares strictly more bytes than the stored collection encoding
occupies (the range still within capacity), the append fails with the
borsh decode error and the buffer is unchanged, because deserialization
must consume the declared byte range exactly. -/
theorem claim10_exact (data : List Nat) (mail : Mail) (t : Target)
    (c : MailAccount) (junk : List Nat)
    (hfits : accFits c) (hj : junk ≠ [])
    (hdl : readDataLength data =
      some ((encMailAccount c).length + junk.length))
    (hslice : (data.drop 4).take
        ((encMailAccount c).length + junk.length) =
      encMailAccount c ++ junk)
    (hb : 4 + (encMailAccount c).length + junk.length ≤ data.length) :
    appendPhase data mail t = (some ProgError.borshIo, data) := by
  have h8 := encMailAccount_ge8 c
  have hbad : accountFromSlice ((data.drop 4).take
      ((encMailAccount c).length + junk.length)) = none := by
    rw [hslice]
    exact accountFromSlice_enc_junk c junk hfits hj
  exact appendPhase_err data mail t _ (readCollectionE_pos_bad data _ hdl
    (by omega) (by omega) hbad)

/-- C10 witness: a 13-byte buffer whose prefix declares 9 bytes while
the stored empty-collection encoding occupies 8 — the append fails with
the decode error and the buffer is unchanged. -/
theorem claim10_witness :
    appendPhase [9, 0, 0, 0, 0, 0, 0, 0, 0, 0, 0, 0, 0] mail0
        Target.sentBox =
      (some ProgError.borshIo,
        [9, 0, 0, 0, 0, 0, 0, 0, 0, 0, 0, 0, 0]) :=
  claim10_exact [9, 0, 0, 0, 0, 0, 0, 0, 0, 0, 0, 0, 0] mail0
    Target.sentBox ⟨[], []⟩ [0] (by decide) (by decide) (by decide)
    (by decide) (by decide)

end SolMail
